import Mathlib

/-!
Verification of the kiteConnect ticker core (src/kiteconnect/ticker.py)
against its natural-language specification.

The Python source is shallowly embedded below:
* byte strings become `List Nat` (one `Nat` per byte),
* `struct.unpack` of a big-endian unsigned integer becomes `unpack_int`,
  returning `none` where Python raises `struct.error` (slice shorter
  than the format requires),
* Python floats produced by dividing a decoded integer by the segment
  divisor are modelled as rationals `ℚ` (the code only forms these
  quotients and the derived `change` expression),
* `datetime.fromtimestamp` is abstracted to the raw epoch seconds value
  (its platform-dependent failure path is not modelled; no claim
  concerns timestamp values),
* functions that can raise return `Option`/`Except` (`none`/`error`
  models the exception escaping the function).
-/

namespace KiteTicker

/-- A byte string: one `Nat` per byte (each < 256 on real inputs). -/
abbrev Bytes := List Nat

/-- Python slice `bin[start:stop]` (for `start ≤ stop`). -/
def sliceBytes (bin : Bytes) (start stop : Nat) : Bytes :=
  (bin.drop start).take (stop - start)

/-- Big-endian value of a byte string. -/
def beNat (bs : Bytes) : Nat :=
  bs.foldl (fun acc b => acc * 256 + b) 0

/-- `_unpack_int(bin, start, end)`: `struct.unpack` of the big-endian
unsigned integer in `bin[start:end]`.  `struct.unpack` requires the
buffer to have exactly the format's size (`end - start` at every call
site), and raises `struct.error` otherwise; `none` models that raise. -/
def unpack_int (bin : Bytes) (start stop : Nat) : Option Nat :=
  let s := sliceBytes bin start stop
  if s.length = stop - start then some (beNat s) else none

/- Exchange / segment constants (class KiteTicker.Exchange). -/
namespace Exchange

def NSE : Nat := 1
def NFO : Nat := 2
def CDS : Nat := 3
def BSE : Nat := 4
def BFO : Nat := 5
def BCD : Nat := 6
def MCX : Nat := 7
def MCXSX : Nat := 8
def INDICES : Nat := 9

end Exchange

/-- Streaming modes (class `Mode`). -/
inductive Mode where
  | full
  | quote
  | ltp
deriving DecidableEq, Repr

/-- OHLC sub-record of a tick. -/
structure Ohlc where
  open_ : ℚ
  high : ℚ
  low : ℚ
  close : ℚ
deriving DecidableEq, Repr

/-- One market-depth level. -/
structure DepthEntry where
  quantity : Nat
  price : ℚ
  orders : Nat
deriving DecidableEq, Repr

/-- Market depth: buy and sell sides. -/
structure MarketDepth where
  buy : List DepthEntry
  sell : List DepthEntry
deriving DecidableEq, Repr

/-- One decoded tick.  Mode-dependent fields are `Option`s (absent keys
of the Python dict).  Timestamps hold the raw epoch seconds. -/
structure Tick where
  tradable : Bool
  mode : Mode
  instrument_token : Nat
  last_price : ℚ
  last_traded_quantity : Option Nat := none
  average_traded_price : Option ℚ := none
  volume_traded : Option Nat := none
  total_buy_quantity : Option Nat := none
  total_sell_quantity : Option Nat := none
  ohlc : Option Ohlc := none
  change : Option ℚ := none
  last_trade_time : Option Nat := none
  oi : Option Nat := none
  oi_day_high : Option Nat := none
  oi_day_low : Option Nat := none
  exchange_timestamp : Option Nat := none
  depth : Option MarketDepth := none
deriving DecidableEq, Repr

/-- Divisor selection from the segment (low byte of the instrument
token), lines 586-591 of ticker.py. -/
def divisorOf (segment : Nat) : ℚ :=
  if segment = Exchange.CDS then 10000000
  else if segment = Exchange.BCD then 10000
  else 100

/-- The `(i, p)` pairs produced by `enumerate(range(64, len, 12))` in
the depth-parsing loop. -/
def depthIndices (len : Nat) : List (Nat × Nat) :=
  (List.range ((len - 64 + 11) / 12)).map (fun i => (i, 64 + 12 * i))

/-- The depth-entry loop body of `_parse_binary` (lines 693-698):
reads quantity, price and order count of each level. -/
def parseDepth (packet : Bytes) (divisor : ℚ) :
    List (Nat × Nat) → Option (List (Nat × DepthEntry))
  | [] => some []
  | (i, p) :: rest => do
      let quantity ← unpack_int packet p (p + 4)
      let price ← unpack_int packet (p + 4) (p + 8)
      let orders ← unpack_int packet (p + 8) (p + 10)
      let tail ← parseDepth packet divisor rest
      pure ((i, { quantity := quantity,
                  price := (price : ℚ) / divisor,
                  orders := orders }) :: tail)

/-- The LTP branch of `_parse_binary` (packet length 8, lines 597-603). -/
def parseLtpPacket (packet : Bytes) (instrument_token : Nat) (tradable : Bool)
    (divisor : ℚ) : Option (List Tick) := do
  let lp ← unpack_int packet 4 8
  pure [{ tradable := tradable, mode := Mode.ltp,
          instrument_token := instrument_token,
          last_price := (lp : ℚ) / divisor }]

/-- The indices quote/full branch of `_parse_binary` (packet lengths 28
and 32, lines 605-637). -/
def parseIndexPacket (packet : Bytes) (instrument_token : Nat) (tradable : Bool)
    (divisor : ℚ) : Option (List Tick) := do
  let lp ← unpack_int packet 4 8
  let hi ← unpack_int packet 8 12
  let lo ← unpack_int packet 12 16
  let op ← unpack_int packet 16 20
  let cl ← unpack_int packet 20 24
  let mode := if packet.length = 28 then Mode.quote else Mode.full
  let last_price : ℚ := (lp : ℚ) / divisor
  let close : ℚ := (cl : ℚ) / divisor
  let change : ℚ := if close ≠ 0 then (last_price - close) * 100 / close else 0
  let ts ←
    if packet.length = 32 then
      (unpack_int packet 28 32).map (fun t => some t)
    else
      pure none
  pure [{ tradable := tradable, mode := mode,
          instrument_token := instrument_token,
          last_price := last_price,
          ohlc := some { high := (hi : ℚ) / divisor, low := (lo : ℚ) / divisor,
                         open_ := (op : ℚ) / divisor, close := close },
          change := some change,
          exchange_timestamp := ts }]

/-- The extra FULL-mode fields of the 184-byte branch (lines 667-700):
timestamps, open interest and market depth. -/
def parseFullExtras (packet : Bytes) (divisor : ℚ) (d : Tick) : Option Tick := do
  let ltt ← unpack_int packet 44 48
  let oiv ← unpack_int packet 48 52
  let oiH ← unpack_int packet 52 56
  let oiL ← unpack_int packet 56 60
  let ts ← unpack_int packet 60 64
  let entries ← parseDepth packet divisor (depthIndices packet.length)
  let dep : MarketDepth :=
    { buy := (entries.filter (fun e => decide (e.1 < 5))).map (fun e => e.2),
      sell := (entries.filter (fun e => decide (5 ≤ e.1))).map (fun e => e.2) }
  pure { d with last_trade_time := some ltt,
                oi := some oiv,
                oi_day_high := some oiH,
                oi_day_low := some oiL,
                exchange_timestamp := some ts,
                depth := some dep }

/-- The dict `d` built at lines 642-664 for the 44/184-byte branch,
before the FULL-mode extras are added. -/
def quoteTick (tradable : Bool) (mode : Mode) (instrument_token : Nat)
    (last_price : ℚ) (ltq : Nat) (atp : ℚ) (vol tbq tsq : Nat)
    (ohlc : Ohlc) (change : ℚ) : Tick :=
  { tradable := tradable, mode := mode,
    instrument_token := instrument_token,
    last_price := last_price,
    last_traded_quantity := some ltq,
    average_traded_price := some atp,
    volume_traded := some vol,
    total_buy_quantity := some tbq,
    total_sell_quantity := some tsq,
    ohlc := some ohlc,
    change := some change }

/-- The quote/full branch of `_parse_binary` (packet lengths 44 and
184, lines 639-702). -/
def parseQuotePacket (packet : Bytes) (instrument_token : Nat) (tradable : Bool)
    (divisor : ℚ) : Option (List Tick) :=
  match unpack_int packet 4 8, unpack_int packet 8 12, unpack_int packet 12 16,
        unpack_int packet 16 20, unpack_int packet 20 24, unpack_int packet 24 28,
        unpack_int packet 28 32, unpack_int packet 32 36, unpack_int packet 36 40,
        unpack_int packet 40 44 with
  | some lp, some ltq, some atp, some vol, some tbq, some tsq,
    some op, some hi, some lo, some cl =>
      let mode := if packet.length = 44 then Mode.quote else Mode.full
      let last_price : ℚ := (lp : ℚ) / divisor
      let close : ℚ := (cl : ℚ) / divisor
      let change : ℚ := if close ≠ 0 then (last_price - close) * 100 / close else 0
      let d : Tick :=
        quoteTick tradable mode instrument_token last_price ltq ((atp : ℚ) / divisor)
          vol tbq tsq
          { open_ := (op : ℚ) / divisor, high := (hi : ℚ) / divisor,
            low := (lo : ℚ) / divisor, close := close }
          change
      if packet.length = 184 then
        (parseFullExtras packet divisor d).map (fun t => [t])
      else
        some [d]
  | _, _, _, _, _, _, _, _, _, _ => none

/-- The per-packet body of `_parse_binary` (lines 580-702).  Returns
`none` when the Python body raises (`struct.error` from `_unpack_int`
on a packet shorter than 4 bytes), `some []` when the packet length is
unrecognised (no tick appended), `some [t]` otherwise. -/
def parsePacket (packet : Bytes) : Option (List Tick) := do
  let instrument_token ← unpack_int packet 0 4
  let segment := instrument_token % 256
  let divisor := divisorOf segment
  let tradable := ! (segment == Exchange.INDICES)
  if packet.length = 8 then
    parseLtpPacket packet instrument_token tradable divisor
  else if packet.length = 28 ∨ packet.length = 32 then
    parseIndexPacket packet instrument_token tradable divisor
  else if packet.length = 44 ∨ packet.length = 184 then
    parseQuotePacket packet instrument_token tradable divisor
  else
    pure []

/-- The loop of `_parse_binary` over the split packets, accumulating
appended ticks; `none` when any iteration raises. -/
def parsePackets : List Bytes → Option (List Tick)
  | [] => some []
  | p :: ps => do
      let t ← parsePacket p
      let rest ← parsePackets ps
      pure (t ++ rest)

/-- The loop of `_split_packets` (lines 719-723): reads `n` packets
starting at offset `j`; `none` when the 2-byte length prefix read
raises `struct.error`. -/
def split_packets_loop (bin : Bytes) : Nat → Nat → Option (List Bytes)
  | 0, _ => some []
  | Nat.succ n, j => do
      let packet_length ← unpack_int bin j (j + 2)
      let packet := sliceBytes bin (j + 2) (j + 2 + packet_length)
      let rest ← split_packets_loop bin n (j + 2 + packet_length)
      pure (packet :: rest)

/-- `_split_packets` (lines 710-725). -/
def split_packets (bin : Bytes) : Option (List Bytes) :=
  if bin.length < 2 then some []
  else do
    let number_of_packets ← unpack_int bin 0 2
    split_packets_loop bin number_of_packets 2

/-- `_parse_binary` (lines 574-704): split the frame into packets and
decode each one.  `none` models the function raising. -/
def parse_binary (bin : Bytes) : Option (List Tick) := do
  let packets ← split_packets bin
  parsePackets packets

/-!  Subscription registry and control commands (lines 419-506).

`subscribed_tokens` is a Python dict; it is embedded as an association
list with dict semantics: assignment updates the entry in place when the
key exists and appends at the end otherwise, and iteration follows list
order (Python dicts preserve insertion order). -/

/-- The registry: insertion-ordered token → mode mapping. -/
abbrev Registry := List (Nat × Mode)

/-- Python dict assignment `d[k] = v`. -/
def dictSet : Registry → Nat → Mode → Registry
  | [], k, v => [(k, v)]
  | p :: rest, k, v =>
      if p.1 = k then (k, v) :: rest else p :: dictSet rest k v

/-- Python dict read `d.get(k)` / `d[k]`. -/
def dictLookup : Registry → Nat → Option Mode
  | [], _ => none
  | p :: rest, k => if p.1 = k then some p.2 else dictLookup rest k

/-- `del d[k]` with the surrounding `except KeyError: pass` of
`unsubscribe` (lines 453-457): removes the key when present, does
nothing otherwise. -/
def dictDel : Registry → Nat → Registry
  | [], _ => []
  | p :: rest, k => if p.1 = k then rest else p :: dictDel rest k

/-- An outbound control message (the JSON payloads of lines 427-429,
448-450, 474-476). -/
inductive Command where
  | subscribe (tokens : List Nat)
  | unsubscribe (tokens : List Nat)
  | setMode (mode : Mode) (tokens : List Nat)
deriving DecidableEq, Repr

/-- The exception escaping a control-command send. -/
inductive WsError where
  | assertionError
  | notConnected
deriving DecidableEq, Repr

/-- The text used in the close reason: `str(e)` of the raised
exception.  A bare `assert` gives an empty message; the not-connected
message is modelled from the spec (the exception comes from the
external websocket library). -/
def wsErrMsg : WsError → String
  | WsError.assertionError => ""
  | WsError.notConnected => "connection is not open"

/-- Client-side state touched by the control-command operations:
the websocket (none = no protocol object yet; some b = object whose
connection is open iff b), the registry, the list of successfully sent
control messages, and the reasons of `sendClose` calls. -/
structure ClientState where
  ws : Option Bool
  subscribed_tokens : Registry
  sent : List Command
  closes : List String
deriving DecidableEq, Repr

/-- Modelled from the spec: the external protocol's `sendMessage`
raises a NotConnected error when the connection is not open ("Sending a
control command to a non-open connection fails with a NotConnected
error"), and otherwise sends.  The in-repo
`assert self.ws is not None` (lines 426/447/473) precedes the send and
raises AssertionError when no protocol object exists yet. -/
def trySend (ws : Option Bool) : Except WsError Unit :=
  match ws with
  | none => Except.error WsError.assertionError
  | some isOpen =>
      if isOpen then Except.ok () else Except.error WsError.notConnected

/-- `_close(reason=...)` (lines 398-401): sends a close frame only when
a protocol object exists. -/
def wsClose (st : ClientState) (reason : String) : ClientState :=
  match st.ws with
  | none => st
  | some _ => { st with closes := st.closes ++ [reason] }

/-- `subscribe` (lines 419-438): send the subscribe command, then
record every token with mode QUOTE; on any exception, close with a
descriptive reason and re-raise. -/
def subscribe (st : ClientState) (instrument_tokens : List Nat) :
    ClientState × Except WsError Bool :=
  match trySend st.ws with
  | Except.error e =>
      (wsClose st (("Error while subscribe: ") ++ wsErrMsg e), Except.error e)
  | Except.ok _ =>
      ({ st with
          sent := st.sent ++ [Command.subscribe instrument_tokens],
          subscribed_tokens := instrument_tokens.foldl
            (fun d token => dictSet d token Mode.quote) st.subscribed_tokens },
       Except.ok true)

/-- `unsubscribe` (lines 440-462). -/
def unsubscribe (st : ClientState) (instrument_tokens : List Nat) :
    ClientState × Except WsError Bool :=
  match trySend st.ws with
  | Except.error e =>
      (wsClose st (("Error while unsubscribe: ") ++ wsErrMsg e), Except.error e)
  | Except.ok _ =>
      ({ st with
          sent := st.sent ++ [Command.unsubscribe instrument_tokens],
          subscribed_tokens := instrument_tokens.foldl
            (fun d token => dictDel d token) st.subscribed_tokens },
       Except.ok true)

/-- `set_mode` (lines 464-486). -/
def set_mode (st : ClientState) (mode : Mode) (instrument_tokens : List Nat) :
    ClientState × Except WsError Bool :=
  match trySend st.ws with
  | Except.error e =>
      (wsClose st (("Error while setting mode: ") ++ wsErrMsg e), Except.error e)
  | Except.ok _ =>
      ({ st with
          sent := st.sent ++ [Command.setMode mode instrument_tokens],
          subscribed_tokens := instrument_tokens.foldl
            (fun d token => dictSet d token mode) st.subscribed_tokens },
       Except.ok true)

/-- One step of the mode-grouping loop of `resubscribe`
(lines 492-498): append the token to its mode's batch, creating the
batch on first sight of the mode. -/
def modesAdd (modes : List (Mode × List Nat)) (m : Mode) (token : Nat) :
    List (Mode × List Nat) :=
  if modes.any (fun g => decide (g.1 = m)) then
    modes.map (fun g => if g.1 = m then (g.1, g.2 ++ [token]) else g)
  else
    modes ++ [(m, [token])]

/-- The `modes` dict of `resubscribe` built over the registry in
iteration order. -/
def groupModes (reg : Registry) : List (Mode × List Nat) :=
  reg.foldl (fun modes p => modesAdd modes p.2 p.1) []

/-- The per-mode loop of `resubscribe` (lines 500-506): for each mode
batch, `subscribe` then `set_mode`; an exception escaping either call
aborts the loop and propagates. -/
def resubscribeLoop : ClientState → List (Mode × List Nat) →
    ClientState × Except WsError Unit
  | st, [] => (st, Except.ok ())
  | st, (m, toks) :: rest =>
      match subscribe st toks with
      | (st1, Except.error e) => (st1, Except.error e)
      | (st1, Except.ok _) =>
          match set_mode st1 m toks with
          | (st2, Except.error e) => (st2, Except.error e)
          | (st2, Except.ok _) => resubscribeLoop st2 rest

/-- `resubscribe` (lines 488-506). -/
def resubscribe (st : ClientState) : ClientState × Except WsError Unit :=
  resubscribeLoop st (groupModes st.subscribed_tokens)

/-!  Reconnection bookkeeping of `KiteTickerClientFactory`
(lines 147-212).  The factory's own code (`clientConnectionLost`,
`send_noreconnect`) is embedded directly; the inherited Twisted
`ReconnectingClientFactory` machinery (`retry`, `stop`) is external to
the repository and is modelled from the spec's reconnection contract. -/

/-- Reconnection state of the factory.  `attemptPending` records
whether a connection attempt is scheduled or in flight;
`reconnectCallbackCount` and `noreconnectCount` count invocations of
the `on_reconnect` and `on_noreconnect` callbacks. -/
structure FactoryState where
  retries : Nat
  maxRetries : Nat
  continueTrying : Bool
  debug : Bool
  attemptPending : Bool
  reconnectCallbackCount : Nat
  noreconnectCount : Nat
deriving DecidableEq, Repr

/-- The factory just after the initial `connect()`: one attempt in
flight, zero consecutive failures. -/
def initFactory (maxRetries : Nat) (debug : Bool) : FactoryState :=
  { retries := 0, maxRetries := maxRetries, continueTrying := true,
    debug := debug, attemptPending := true,
    reconnectCallbackCount := 0, noreconnectCount := 0 }

/-- Modelled from the spec: Twisted's `ReconnectingClientFactory.retry`
(external to this repository).  While retrying has not been stopped it
increments the consecutive-failure count and schedules a further
connection attempt only when the count has not exceeded `maxRetries`;
past `maxRetries` it abandons, so "no further automatic attempts
occur". -/
def retry (s : FactoryState) : FactoryState :=
  if s.continueTrying then
    let s1 := { s with retries := s.retries + 1 }
    if s1.maxRetries < s1.retries then { s1 with attemptPending := false }
    else { s1 with attemptPending := true }
  else
    { s with attemptPending := false }

/-- Modelled from the spec: `ReconnectingClientFactory.stop` (external):
suppresses further retries and clears any pending attempt. -/
def stopRetrying (s : FactoryState) : FactoryState :=
  { s with continueTrying := false, attemptPending := false }

/-- `send_noreconnect` (lines 202-212): once `retries` exceeds
`maxRetries`, stop the retry loop (only under debug — the `self.stop()`
call sits inside the `if self.debug:` block) and fire the
`on_noreconnect` callback. -/
def send_noreconnect (s : FactoryState) : FactoryState :=
  if s.maxRetries < s.retries then
    let s1 := if s.debug then stopRetrying s else s
    { s1 with noreconnectCount := s1.noreconnectCount + 1 }
  else s

/-- `clientConnectionLost` (lines 191-200): fire `on_reconnect` when at
least one retry has happened, then `retry` the connection and check for
exhaustion. -/
def clientConnectionLost (s : FactoryState) : FactoryState :=
  let s1 :=
    if 0 < s.retries then
      { s with reconnectCallbackCount := s.reconnectCallbackCount + 1 }
    else s
  send_noreconnect (retry s1)

/-- Event traces of the factory: a connection-failure event
(`clientConnectionLost`) can only happen while an attempt is pending. -/
inductive Reaches (s0 : FactoryState) : FactoryState → Prop
  | refl : Reaches s0 s0
  | step (s : FactoryState) : Reaches s0 s → s.attemptPending = true →
      Reaches s0 (clientConnectionLost s)

/-!  Text message dispatcher (`_parse_text_message`, lines 559-572).
JSON values are embedded as a small inductive; `json.loads` itself is
external, so the dispatcher takes the parse outcome (`none` = the
payload was not valid JSON and `json.loads` raised `ValueError`). -/

/-- A decoded JSON value. -/
inductive Json where
  | null
  | bool (b : Bool)
  | num (n : Int)
  | str (s : String)
  | arr (items : List Json)
  | obj (fields : List (String × Json))

/-- An event emitted by the dispatcher: the `on_order_update` callback
payload, or the `on_error` invocation with sentinel code 0. -/
inductive TextEvent where
  | orderUpdate (payload : Json)
  | errorEvent (code : Nat) (reason : Option Json)

/-- `data.get(key)`: `some result` when `data` is a JSON object
(`result = none` when the key is absent, Python's `None`); the outer
`none` models the `AttributeError` raised when the decoded value is not
a dict. -/
def dataGet (j : Json) (key : String) : Option (Option Json) :=
  match j with
  | Json.obj fields =>
      some ((fields.find? (fun f => f.1 == key)).map (fun f => f.2))
  | _ => none

/-- Python `value == "s"` for a `.get` result. -/
def isStrVal (j : Option Json) (s : String) : Bool :=
  match j with
  | some (Json.str t) => t == s
  | _ => false

/-- Python truthiness of a `.get` result (`None` is falsy). -/
def truthy : Option Json → Bool
  | none => false
  | some Json.null => false
  | some (Json.bool b) => b
  | some (Json.num n) => ! (n == 0)
  | some (Json.str s) => ! (s == "")
  | some (Json.arr items) => ! items.isEmpty
  | some (Json.obj fields) => ! fields.isEmpty

/-- `_parse_text_message` (lines 559-572): on JSON parse failure return
silently; otherwise emit the order-update event (when the
`on_order_update` callback is registered, `type == "order"` and `data`
is truthy) and the error event (when `type == "error"`).  `none` models
the body raising (`data.get` on a non-dict JSON value). -/
def parse_text_message (payload : Option Json) (on_order_update : Bool) :
    Option (List TextEvent) :=
  match payload with
  | none => some []
  | some data =>
      match dataGet data ("type") with
      | none => none
      | some ty =>
          match dataGet data ("data") with
          | none => none
          | some dt =>
              let orderEvents :=
                if on_order_update && isStrVal ty ("order") && truthy dt then
                  [TextEvent.orderUpdate (dt.getD Json.null)]
                else []
              let errorEvents :=
                if isStrVal ty ("error") then [TextEvent.errorEvent 0 dt]
                else []
              some (orderEvents ++ errorEvents)

/-- A concrete 8-byte LTP packet on the CDS segment (low byte 3 of the
instrument token), used as a witness input. -/
def pC6 : Bytes := [0, 0, 0, 3, 0, 0, 1, 0]

/-- The tick decoded from `pC6`. -/
def tC6 : Tick :=
  { tradable := true, mode := Mode.ltp, instrument_token := 3,
    last_price := (256 : ℚ) / 10000000 }

/-- A concrete all-zero 28-byte index QUOTE packet, used as a witness
input. -/
def pC7 : Bytes := List.replicate 28 0

/-- The tick decoded from `pC7`. -/
def tC7 : Tick :=
  { tradable := true, mode := Mode.quote, instrument_token := 0,
    last_price := 0,
    ohlc := some { open_ := 0, high := 0, low := 0, close := 0 },
    change := some 0 }

/-- A connected client with two subscriptions in distinct modes, used
as a witness input. -/
def stC2 : ClientState :=
  { ws := some true, subscribed_tokens := [(1, Mode.quote), (2, Mode.full)],
    sent := [], closes := [] }

/-- A connected client with one FULL-mode subscription, used as a
witness input. -/
def stC3 : ClientState :=
  { ws := some true, subscribed_tokens := [(1, Mode.full)],
    sent := [], closes := [] }

/-- A client whose websocket exists but whose connection is not open,
used as a witness input. -/
def stC5 : ClientState :=
  { ws := some false, subscribed_tokens := [(1, Mode.quote)],
    sent := [], closes := [] }

end KiteTicker

open KiteTicker

/-- `unpack_int` succeeds and yields the big-endian value of the slice
whenever the slice is fully inside the byte string. -/
theorem unpack_int_eq_some (bin : Bytes) (start stop : Nat)
    (h1 : start ≤ stop) (h2 : stop ≤ bin.length) :
    unpack_int bin start stop = some (beNat (sliceBytes bin start stop)) := by
  have hlen : (sliceBytes bin start stop).length = stop - start := by
    simp only [sliceBytes, List.length_take, List.length_drop]
    omega
  simp [unpack_int, hlen]

/-- `unpack_int` fails exactly when the slice is cut short by the end
of the byte string. -/
theorem unpack_int_eq_none (bin : Bytes) (start stop : Nat)
    (h1 : start < stop) (h2 : bin.length < stop) :
    unpack_int bin start stop = none := by
  have hlen : (sliceBytes bin start stop).length ≠ stop - start := by
    simp only [sliceBytes, List.length_take, List.length_drop]
    omega
  simp [unpack_int, hlen]

/-- The depth loop succeeds whenever every level lies inside the
packet. -/
theorem parseDepth_isSome (p : Bytes) (divisor : ℚ) :
    ∀ idxs : List (Nat × Nat), (∀ e ∈ idxs, e.2 + 10 ≤ p.length) →
    (parseDepth p divisor idxs).isSome := by
  intro idxs
  induction idxs with
  | nil => intro _; simp [parseDepth]
  | cons e rest ih =>
      intro h
      obtain ⟨i, q⟩ := e
      have hq : q + 10 ≤ p.length := h (i, q) (by simp)
      have h1 := unpack_int_eq_some p q (q + 4) (by omega) (by omega)
      have h2 := unpack_int_eq_some p (q + 4) (q + 8) (by omega) (by omega)
      have h3 := unpack_int_eq_some p (q + 8) (q + 10) (by omega) (by omega)
      have hrest := ih (fun e he => h e (List.mem_cons_of_mem _ he))
      obtain ⟨tail, htail⟩ := Option.isSome_iff_exists.mp hrest
      simp [parseDepth, h1, h2, h3, htail]

/-- The 184-byte FULL extras succeed on a 184-byte packet. -/
theorem parseFullExtras_isSome (p : Bytes) (divisor : ℚ) (d : Tick)
    (h : p.length = 184) : (parseFullExtras p divisor d).isSome := by
  have h1 := unpack_int_eq_some p 44 48 (by omega) (by omega)
  have h2 := unpack_int_eq_some p 48 52 (by omega) (by omega)
  have h3 := unpack_int_eq_some p 52 56 (by omega) (by omega)
  have h4 := unpack_int_eq_some p 56 60 (by omega) (by omega)
  have h5 := unpack_int_eq_some p 60 64 (by omega) (by omega)
  have hb : ∀ e ∈ depthIndices p.length, e.2 + 10 ≤ p.length := by
    rw [h]; decide
  obtain ⟨entries, hent⟩ :=
    Option.isSome_iff_exists.mp (parseDepth_isSome p divisor _ hb)
  simp [parseFullExtras, h1, h2, h3, h4, h5, hent]

/-- Any packet of at least 4 bytes decodes without raising. -/
theorem parsePacket_isSome (p : Bytes) (h4 : 4 ≤ p.length) :
    (parsePacket p).isSome := by
  have h0 := unpack_int_eq_some p 0 4 (by omega) h4
  by_cases h8 : p.length = 8
  · have h1 := unpack_int_eq_some p 4 8 (by omega) (by omega)
    simp [parsePacket, h0, h8, parseLtpPacket, h1]
  · by_cases hidx : p.length = 28 ∨ p.length = 32
    · have hlen : 28 ≤ p.length := by omega
      have h1 := unpack_int_eq_some p 4 8 (by omega) (by omega)
      have h2 := unpack_int_eq_some p 8 12 (by omega) (by omega)
      have h3 := unpack_int_eq_some p 12 16 (by omega) (by omega)
      have h4b := unpack_int_eq_some p 16 20 (by omega) (by omega)
      have h5 := unpack_int_eq_some p 20 24 (by omega) (by omega)
      by_cases h32 : p.length = 32
      · have h6 := unpack_int_eq_some p 28 32 (by omega) (by omega)
        simp [parsePacket, h0, h8, hidx, parseIndexPacket,
              h1, h2, h3, h4b, h5, h32, h6]
      · have h28 : p.length = 28 := hidx.resolve_right h32
        simp [parsePacket, h0, h8, hidx, parseIndexPacket,
              h1, h2, h3, h4b, h5, h32, h28]
    · by_cases hqf : p.length = 44 ∨ p.length = 184
      · have hlen : 44 ≤ p.length := by omega
        have h1 := unpack_int_eq_some p 4 8 (by omega) (by omega)
        have h2 := unpack_int_eq_some p 8 12 (by omega) (by omega)
        have h3 := unpack_int_eq_some p 12 16 (by omega) (by omega)
        have h4b := unpack_int_eq_some p 16 20 (by omega) (by omega)
        have h5 := unpack_int_eq_some p 20 24 (by omega) (by omega)
        have h6 := unpack_int_eq_some p 24 28 (by omega) (by omega)
        have h7 := unpack_int_eq_some p 28 32 (by omega) (by omega)
        have h8b := unpack_int_eq_some p 32 36 (by omega) (by omega)
        have h9 := unpack_int_eq_some p 36 40 (by omega) (by omega)
        have h10 := unpack_int_eq_some p 40 44 (by omega) (by omega)
        by_cases h184 : p.length = 184
        · simp only [parsePacket, h0, h8, hidx, hqf, parseQuotePacket,
                h1, h2, h3, h4b, h5, h6, h7, h8b, h9, h10, h184]
          simp only [Option.some_bind, if_true, if_pos, ite_true, if_neg,
                     Option.isSome_map]
          simp
          exact parseFullExtras_isSome p _ _ h184
        · have h44 : p.length = 44 := hqf.resolve_right h184
          simp [parsePacket, h0, h8, hidx, hqf, parseQuotePacket,
                h1, h2, h3, h4b, h5, h6, h7, h8b, h9, h10, h184, h44]
      · simp [parsePacket, h0, h8, hidx, hqf]

/-- A packet of at least 4 bytes with an unrecognised length is
skipped: it contributes no tick and raises nothing. -/
theorem parsePacket_skip (p : Bytes) (h4 : 4 ≤ p.length)
    (h : p.length ∉ ([8, 28, 32, 44, 184] : List Nat)) :
    parsePacket p = some [] := by
  simp only [List.mem_cons, List.not_mem_nil, or_false, not_or] at h
  obtain ⟨h8, h28, h32, h44, h184⟩ := h
  have h0 := unpack_int_eq_some p 0 4 (by omega) h4
  simp [parsePacket, h0, h8, h28, h32, h44, h184]

/-- A packet shorter than 4 bytes makes the decode raise
(struct.error from the instrument-token read). -/
theorem parsePacket_short (p : Bytes) (h : p.length < 4) :
    parsePacket p = none := by
  have h0 := unpack_int_eq_none p 0 4 (by omega) h
  simp [parsePacket, h0]

/-- The packet loop succeeds when every split packet has at least 4
bytes. -/
theorem parsePackets_isSome : ∀ ps : List Bytes,
    (∀ p ∈ ps, 4 ≤ p.length) → (parsePackets ps).isSome := by
  intro ps
  induction ps with
  | nil => intro _; simp [parsePackets]
  | cons p rest ih =>
      intro h
      obtain ⟨t, ht⟩ := Option.isSome_iff_exists.mp
        (parsePacket_isSome p (h p (List.mem_cons_self p rest)))
      obtain ⟨ts, hts⟩ := Option.isSome_iff_exists.mp
        (ih (fun q hq => h q (List.mem_cons_of_mem _ hq)))
      simp [parsePackets, ht, hts]

/-- C1 counterexample: the frame `00 01 00 00` declares one packet of
length 0.  Length 0 is not one of {8, 28, 32, 44, 184}, so the claim
says the packet is skipped and decoding returns the (empty) list of
well-formed ticks; instead `_parse_binary` raises `struct.error` when
it reads the instrument token of the empty packet (`none` ≠
`some []`). -/
theorem C1_counterexample : parse_binary [0, 1, 0, 0] = none := by decide

/-- C1 (amended): a packet of at least 4 bytes whose length is not one
of {8, 28, 32, 44, 184} is skipped without error; but a packet shorter
than 4 bytes (e.g. one truncated by a declared length running past the
frame) makes the whole decode raise; when every split packet has at
least 4 bytes the frame decodes without error. -/
theorem C1_amended_graceful :
    (∀ p : Bytes, 4 ≤ p.length → p.length ∉ ([8, 28, 32, 44, 184] : List Nat) →
      parsePacket p = some []) ∧
    (∀ p : Bytes, p.length < 4 → parsePacket p = none) ∧
    (∀ (bin : Bytes) (ps : List Bytes), split_packets bin = some ps →
      (∀ p ∈ ps, 4 ≤ p.length) → (parse_binary bin).isSome) := by
  refine ⟨parsePacket_skip, parsePacket_short, ?_⟩
  intro bin ps hsplit h
  obtain ⟨ts, hts⟩ := Option.isSome_iff_exists.mp (parsePackets_isSome ps h)
  simp [parse_binary, hsplit, hts]

/-- Witness for C1 (amended) at concrete frames: a 5-byte packet is
skipped, a 3-byte packet aborts, and a well-formed 1-packet frame
decodes. -/
theorem C1_amended_witness :
    parsePacket [0, 0, 0, 0, 0] = some [] ∧
    parsePacket [0, 0, 0] = none ∧
    (parse_binary [0, 1, 0, 8, 0, 0, 0, 1, 0, 0, 1, 4]).isSome :=
  ⟨C1_amended_graceful.1 [0, 0, 0, 0, 0] (by decide) (by decide),
   C1_amended_graceful.2.1 [0, 0, 0] (by decide),
   C1_amended_graceful.2.2 [0, 1, 0, 8, 0, 0, 0, 1, 0, 0, 1, 4]
     [[0, 0, 0, 1, 0, 0, 1, 4]] (by decide) (by decide)⟩

/-- C8: a heartbeat or empty frame (fewer than 2 bytes) decodes to an
empty tick list without error. -/
theorem C8_heartbeat_empty : ∀ bin : Bytes, bin.length < 2 →
    parse_binary bin = some [] := by
  intro bin h
  simp [parse_binary, split_packets, h, parsePackets]

/-- Witness for C8 at the empty frame. -/
theorem C8_witness : ([] : Bytes).length < 2 ∧ parse_binary [] = some [] :=
  ⟨by decide, C8_heartbeat_empty [] (by decide)⟩

/-- The FULL-mode extras only add fields: token, price, ohlc and change
are those of the incoming dict. -/
theorem parseFullExtras_fields (p : Bytes) (divisor : ℚ) (d te : Tick)
    (h : parseFullExtras p divisor d = some te) :
    te.instrument_token = d.instrument_token ∧ te.last_price = d.last_price ∧
    te.ohlc = d.ohlc ∧ te.change = d.change := by
  unfold parseFullExtras at h
  simp only [bind, Option.bind_eq_some, Option.pure_def,
             Option.some.injEq] at h
  obtain ⟨a, h1, b, h2, c, h3, e, h4, f, h5, entries, h6, hte⟩ := h
  subst hte
  simp

/-- Inversion of the per-packet decoder: every produced tick reads its
instrument token from bytes 0-4 and its last price from bytes 4-8
scaled by the segment divisor, and (for the quote/full packet lengths)
carries an OHLC record and the derived change. -/
theorem parsePacket_fields (p : Bytes) (ts : List Tick) (t : Tick)
    (h : parsePacket p = some ts) (hm : t ∈ ts) :
    ((∃ tok, unpack_int p 0 4 = some tok ∧ t.instrument_token = tok) ∧
     (∃ lp, unpack_int p 4 8 = some lp ∧
        t.last_price = (lp : ℚ) / divisorOf (t.instrument_token % 256))) ∧
    ((p.length = 28 ∨ p.length = 32 ∨ p.length = 44 ∨ p.length = 184) →
      ∃ o, t.ohlc = some o ∧
        t.change = some (if o.close ≠ 0 then
          (t.last_price - o.close) * 100 / o.close else 0)) := by
  unfold parsePacket at h
  simp only [bind, Option.bind_eq_some] at h
  obtain ⟨tok, htok, h⟩ := h
  by_cases h8 : p.length = 8
  · rw [if_pos h8] at h
    unfold parseLtpPacket at h
    simp only [bind, Option.bind_eq_some, Option.pure_def,
               Option.some.injEq] at h
    obtain ⟨lp, hlp, hts⟩ := h
    subst hts
    rw [List.mem_singleton] at hm
    subst hm
    refine ⟨⟨⟨tok, htok, rfl⟩, ⟨lp, hlp, by simp⟩⟩, ?_⟩
    intro hlen
    omega
  · rw [if_neg h8] at h
    by_cases hidx : p.length = 28 ∨ p.length = 32
    · rw [if_pos hidx] at h
      unfold parseIndexPacket at h
      simp only [bind, Option.bind_eq_some] at h
      obtain ⟨lp, hlp, h⟩ := h
      obtain ⟨hi, hhi, h⟩ := h
      obtain ⟨lo, hlo, h⟩ := h
      obtain ⟨op, hop, h⟩ := h
      obtain ⟨cl, hcl, h⟩ := h
      by_cases h32 : p.length = 32
      · rw [if_pos h32] at h
        simp only [Option.map_eq_some', Option.bind_eq_some,
                   Option.pure_def, Option.some.injEq] at h
        obtain ⟨y, ⟨traw, htraw, hy⟩, hts⟩ := h
        subst hts
        rw [List.mem_singleton] at hm
        subst hm
        refine ⟨⟨⟨tok, htok, rfl⟩, ⟨lp, hlp, by simp⟩⟩, ?_⟩
        intro _
        exact ⟨_, rfl, by simp⟩
      · rw [if_neg h32] at h
        simp only [Option.pure_def, Option.some_bind,
                   Option.some.injEq] at h
        subst h
        rw [List.mem_singleton] at hm
        subst hm
        refine ⟨⟨⟨tok, htok, rfl⟩, ⟨lp, hlp, by simp⟩⟩, ?_⟩
        intro _
        exact ⟨_, rfl, by simp⟩
    · rw [if_neg hidx] at h
      by_cases hqf : p.length = 44 ∨ p.length = 184
      · rw [if_pos hqf] at h
        unfold parseQuotePacket at h
        split at h
        · rename_i lp ltq atp vol tbq tsq op hi lo cl
            hlp hltq hatp hvol htbq htsq hop hhi hlo hcl
          simp only [] at h
          by_cases h184 : p.length = 184
          · rw [if_pos h184] at h
            simp only [Option.map_eq_some'] at h
            obtain ⟨te, hte, hts⟩ := h
            subst hts
            rw [List.mem_singleton] at hm
            subst hm
            obtain ⟨hfe1, hfe2, hfe3, hfe4⟩ :=
              parseFullExtras_fields _ _ _ _ hte
            refine ⟨⟨⟨tok, htok, ?_⟩, ⟨lp, hlp, ?_⟩⟩, ?_⟩
            · rw [hfe1]; simp [quoteTick]
            · rw [hfe2, hfe1]; simp [quoteTick]
            · intro _
              refine ⟨{ open_ := (op : ℚ) / divisorOf (tok % 256),
                        high := (hi : ℚ) / divisorOf (tok % 256),
                        low := (lo : ℚ) / divisorOf (tok % 256),
                        close := (cl : ℚ) / divisorOf (tok % 256) }, ?_, ?_⟩
              · rw [hfe3]; rfl
              · rw [hfe4, hfe2]; rfl
          · rw [if_neg h184] at h
            simp only [Option.pure_def, Option.some.injEq] at h
            subst h
            rw [List.mem_singleton] at hm
            subst hm
            refine ⟨⟨⟨tok, htok, by simp [quoteTick]⟩,
                     ⟨lp, hlp, by simp [quoteTick]⟩⟩, ?_⟩
            intro _
            exact ⟨{ open_ := (op : ℚ) / divisorOf (tok % 256),
                     high := (hi : ℚ) / divisorOf (tok % 256),
                     low := (lo : ℚ) / divisorOf (tok % 256),
                     close := (cl : ℚ) / divisorOf (tok % 256) }, rfl, rfl⟩
        · simp at h
      · rw [if_neg hqf] at h
        simp only [Option.pure_def, Option.some.injEq] at h
        subst h
        simp at hm

/-- C6: every decoded tick scales its last price (bytes 4-8) by the
divisor selected from the low byte of the instrument token:
10,000,000 for the currency-derivatives (CDS) segment, 10,000 for the
BCD segment, and 100 for every other segment value. -/
theorem C6_segment_divisor : ∀ (p : Bytes) (ts : List Tick) (t : Tick),
    parsePacket p = some ts → t ∈ ts →
    (∃ lp, unpack_int p 4 8 = some lp ∧
       t.last_price = (lp : ℚ) / divisorOf (t.instrument_token % 256)) ∧
    (t.instrument_token % 256 = Exchange.CDS →
       divisorOf (t.instrument_token % 256) = 10000000) ∧
    (t.instrument_token % 256 = Exchange.BCD →
       divisorOf (t.instrument_token % 256) = 10000) ∧
    (t.instrument_token % 256 ≠ Exchange.CDS →
     t.instrument_token % 256 ≠ Exchange.BCD →
       divisorOf (t.instrument_token % 256) = 100) := by
  intro p ts t h hm
  obtain ⟨⟨_, hlp⟩, _⟩ := parsePacket_fields p ts t h hm
  refine ⟨hlp, ?_, ?_, ?_⟩
  · intro hseg
    simp [divisorOf, hseg]
  · intro hseg
    simp [divisorOf, hseg, Exchange.CDS, Exchange.BCD]
  · intro h1 h2
    simp [divisorOf, h1, h2]

/-- Witness for C6 at a concrete CDS-segment LTP packet. -/
theorem C6_witness :
    (∃ lp, unpack_int pC6 4 8 = some lp ∧
       tC6.last_price = (lp : ℚ) / divisorOf (tC6.instrument_token % 256)) ∧
    (tC6.instrument_token % 256 = Exchange.CDS →
       divisorOf (tC6.instrument_token % 256) = 10000000) ∧
    (tC6.instrument_token % 256 = Exchange.BCD →
       divisorOf (tC6.instrument_token % 256) = 10000) ∧
    (tC6.instrument_token % 256 ≠ Exchange.CDS →
     tC6.instrument_token % 256 ≠ Exchange.BCD →
       divisorOf (tC6.instrument_token % 256) = 100) :=
  C6_segment_divisor pC6 [tC6] tC6
    (by norm_num [pC6, tC6, parsePacket, parseLtpPacket, unpack_int,
                  sliceBytes, beNat, divisorOf, Exchange.CDS, Exchange.BCD,
                  Exchange.INDICES, bind])
    (by simp)

/-- C7: every decoded QUOTE or FULL tick (packet lengths 28, 32, 44,
184) carries an OHLC record, and its change equals
(lastPrice - close) * 100 / close when close is nonzero, else 0. -/
theorem C7_change_formula : ∀ (p : Bytes) (ts : List Tick) (t : Tick),
    parsePacket p = some ts → t ∈ ts →
    (p.length = 28 ∨ p.length = 32 ∨ p.length = 44 ∨ p.length = 184) →
    ∃ o, t.ohlc = some o ∧
      t.change = some (if o.close ≠ 0 then
        (t.last_price - o.close) * 100 / o.close else 0) := by
  intro p ts t h hm hlen
  exact (parsePacket_fields p ts t h hm).2 hlen

/-- Witness for C7 at a concrete 28-byte packet. -/
theorem C7_witness :
    ∃ o, tC7.ohlc = some o ∧
      tC7.change = some (if o.close ≠ 0 then
        (tC7.last_price - o.close) * 100 / o.close else 0) :=
  C7_change_formula pC7 [tC7] tC7
    (by norm_num [pC7, tC7, parsePacket, parseIndexPacket, unpack_int,
                  sliceBytes, beNat, divisorOf, Exchange.CDS, Exchange.BCD,
                  Exchange.INDICES, bind, List.replicate])
    (by simp) (by simp [pC7])

/-- Lookup after a dict assignment. -/
theorem dictLookup_dictSet (d : Registry) (k : Nat) (v : Mode) (k2 : Nat) :
    dictLookup (dictSet d k v) k2 = if k2 = k then some v else dictLookup d k2 := by
  induction d with
  | nil =>
      by_cases h : k2 = k
      · subst h; simp [dictSet, dictLookup]
      · simp [dictSet, dictLookup, h, Ne.symm h]
  | cons p rest ih =>
      obtain ⟨pk, pv⟩ := p
      by_cases hp : pk = k
      · subst hp
        by_cases hk : k2 = pk
        · subst hk; simp [dictSet, dictLookup]
        · simp [dictSet, dictLookup, hk, Ne.symm hk]
      · by_cases hk : k2 = k
        · subst hk
          simp [dictSet, dictLookup, hp, Ne.symm hp, ih]
        · by_cases hpk2 : pk = k2
          · subst hpk2; simp [dictSet, dictLookup, hp, hk, ih]
          · simp [dictSet, dictLookup, hp, hk, hpk2, ih]

/-- Lookup after assigning one mode to a whole token list. -/
theorem dictLookup_foldl_set (m : Mode) :
    ∀ (toks : List Nat) (d : Registry) (k : Nat),
    dictLookup (toks.foldl (fun d t => dictSet d t m) d) k =
      if k ∈ toks then some m else dictLookup d k := by
  intro toks
  induction toks with
  | nil => intro d k; simp
  | cons t ts ih =>
      intro d k
      simp only [List.foldl_cons]
      rw [ih]
      by_cases hk : k ∈ ts
      · simp [hk]
      · by_cases hkt : k = t
        · subst hkt; simp [hk, dictLookup_dictSet]
        · simp [hk, hkt, dictLookup_dictSet]

/-- With no duplicate keys, membership determines lookup. -/
theorem dictLookup_of_mem (reg : Registry) (hnd : (reg.map Prod.fst).Nodup)
    (t : Nat) (m : Mode) (hm : (t, m) ∈ reg) : dictLookup reg t = some m := by
  induction reg with
  | nil => simp at hm
  | cons p rest ih =>
      obtain ⟨pk, pv⟩ := p
      simp only [List.map_cons, List.nodup_cons] at hnd
      rcases List.mem_cons.mp hm with heq | hmem
      · cases heq
        simp [dictLookup]
      · by_cases hpt : pk = t
        · exact absurd (List.mem_map.mpr ⟨(t, m), hmem, rfl⟩) (hpt ▸ hnd.1)
        · simpa [dictLookup, hpt] using ih hnd.2 hmem

/-- `modesAdd` preserves a per-token property of the accumulated
groups. -/
theorem modesAdd_forall {P : Nat → Mode → Prop} (acc : List (Mode × List Nat))
    (m : Mode) (t : Nat)
    (hacc : ∀ g ∈ acc, ∀ x ∈ g.2, P x g.1) (ht : P t m) :
    ∀ g ∈ modesAdd acc m t, ∀ x ∈ g.2, P x g.1 := by
  intro g hg x hx
  unfold modesAdd at hg
  split at hg
  · obtain ⟨g0, hg0, hgeq⟩ := List.mem_map.mp hg
    by_cases hg0m : g0.1 = m
    · rw [if_pos hg0m] at hgeq
      subst hgeq
      simp only [List.mem_append, List.mem_singleton] at hx
      rcases hx with hx | hx
      · exact hacc g0 hg0 x hx
      · subst hx
        simpa [hg0m] using ht
    · rw [if_neg hg0m] at hgeq
      subst hgeq
      exact hacc g0 hg0 x hx
  · rcases List.mem_append.mp hg with hin | hnew
    · exact hacc g hin x hx
    · rw [List.mem_singleton] at hnew
      subst hnew
      rw [List.mem_singleton] at hx
      subst hx
      exact ht

/-- The grouping fold preserves a per-token property. -/
theorem foldl_modesAdd_forall {P : Nat → Mode → Prop} :
    ∀ (entries : List (Nat × Mode)) (acc : List (Mode × List Nat)),
    (∀ g ∈ acc, ∀ x ∈ g.2, P x g.1) → (∀ p ∈ entries, P p.1 p.2) →
    ∀ g ∈ entries.foldl (fun ms p => modesAdd ms p.2 p.1) acc,
      ∀ x ∈ g.2, P x g.1 := by
  intro entries
  induction entries with
  | nil => intro acc hacc _; simpa using hacc
  | cons e es ih =>
      intro acc hacc hent
      simp only [List.foldl_cons]
      exact ih _
        (modesAdd_forall _ _ _ hacc (hent e (List.mem_cons_self e es)))
        (fun p hp => hent p (List.mem_cons_of_mem _ hp))

/-- Every token grouped under a mode by `resubscribe` is registered
with that mode (for a registry without duplicate keys). -/
theorem groupModes_sound (reg : Registry) (hnd : (reg.map Prod.fst).Nodup) :
    ∀ g ∈ groupModes reg, ∀ x ∈ g.2, dictLookup reg x = some g.1 := by
  unfold groupModes
  exact @foldl_modesAdd_forall (fun x m => dictLookup reg x = some m) reg []
    (by simp) (fun p hp => dictLookup_of_mem reg hnd p.1 p.2 (by simpa using hp))

/-- `subscribe` on an open connection: sends the subscribe command and
marks every token QUOTE. -/
theorem subscribe_open (st : ClientState) (toks : List Nat)
    (h : st.ws = some true) :
    subscribe st toks =
      ({ st with
          sent := st.sent ++ [Command.subscribe toks],
          subscribed_tokens := toks.foldl
            (fun d t => dictSet d t Mode.quote) st.subscribed_tokens },
       Except.ok true) := by
  simp [subscribe, trySend, h]

/-- `set_mode` on an open connection: sends the set-mode command and
records the mode for every token. -/
theorem set_mode_open (st : ClientState) (m : Mode) (toks : List Nat)
    (h : st.ws = some true) :
    set_mode st m toks =
      ({ st with
          sent := st.sent ++ [Command.setMode m toks],
          subscribed_tokens := toks.foldl
            (fun d t => dictSet d t m) st.subscribed_tokens },
       Except.ok true) := by
  simp [set_mode, trySend, h]

/-- A subscribe-then-set-mode pair restores the registry whenever every
token of the batch already carried the batch's mode. -/
theorem foldl_set_restore (reg : Registry) (m : Mode) (toks : List Nat)
    (hg : ∀ x ∈ toks, dictLookup reg x = some m) (k : Nat) :
    dictLookup (toks.foldl (fun d t => dictSet d t m)
      (toks.foldl (fun d t => dictSet d t Mode.quote) reg)) k =
    dictLookup reg k := by
  rw [dictLookup_foldl_set, dictLookup_foldl_set]
  by_cases hk : k ∈ toks
  · simp [hk, (hg k hk).symm]
  · simp [hk]

/-- The resubscribe loop on an open connection succeeds, keeps the
socket, and emits one subscribe command immediately followed by one
set-mode command per mode batch, in batch order. -/
theorem resubscribeLoop_sent : ∀ (gs : List (Mode × List Nat)) (st : ClientState),
    st.ws = some true →
    (resubscribeLoop st gs).1.ws = some true ∧
    (resubscribeLoop st gs).2 = Except.ok () ∧
    (resubscribeLoop st gs).1.sent = st.sent ++
      gs.flatMap (fun g => [Command.subscribe g.2, Command.setMode g.1 g.2]) := by
  intro gs
  induction gs with
  | nil => intro st h; simpa [resubscribeLoop] using h
  | cons g rest ih =>
      intro st h
      obtain ⟨m, toks⟩ := g
      simp only [resubscribeLoop, subscribe_open, set_mode_open, h]
      refine ⟨(ih _ (by simp [h])).1, (ih _ (by simp [h])).2.1, ?_⟩
      rw [(ih _ (by simp [h])).2.2]
      simp

/-- The resubscribe loop leaves every registry entry as it was,
provided each batch's tokens already carry the batch's mode. -/
theorem resubscribeLoop_lookup : ∀ (gs : List (Mode × List Nat)) (st : ClientState),
    st.ws = some true →
    (∀ g ∈ gs, ∀ x ∈ g.2, dictLookup st.subscribed_tokens x = some g.1) →
    ∀ k, dictLookup (resubscribeLoop st gs).1.subscribed_tokens k =
         dictLookup st.subscribed_tokens k := by
  intro gs
  induction gs with
  | nil => intro st h hg k; simp [resubscribeLoop]
  | cons g rest ih =>
      intro st h hg k
      obtain ⟨m, toks⟩ := g
      simp only [resubscribeLoop, subscribe_open, set_mode_open, h]
      have hrestore := foldl_set_restore st.subscribed_tokens m toks
        (fun x hx => hg (m, toks) (List.mem_cons_self _ _) x hx)
      have htrans : ∀ g2 ∈ rest, ∀ x ∈ g2.2,
          dictLookup (toks.foldl (fun d t => dictSet d t m)
            (toks.foldl (fun d t => dictSet d t Mode.quote)
              st.subscribed_tokens)) x = some g2.1 :=
        fun g2 hg2 x hx =>
          (hrestore x).trans (hg g2 (List.mem_cons_of_mem _ hg2) x hx)
      rw [ih { ws := some true,
               subscribed_tokens := toks.foldl (fun d t => dictSet d t m)
                 (toks.foldl (fun d t => dictSet d t Mode.quote)
                   st.subscribed_tokens),
               sent := st.sent ++ [Command.subscribe toks] ++
                 [Command.setMode m toks],
               closes := st.closes } rfl htrans k]
      simpa using hrestore k

/-- C2 counterexample: with two distinct modes in the registry,
`resubscribe` does NOT send one subscribe command containing all
tokens followed by the set-mode commands; it sends, per mode, a
subscribe for that mode's tokens immediately followed by its set-mode
command. -/
theorem C2_counterexample :
    (resubscribe stC2).1.sent =
      [Command.subscribe [1], Command.setMode Mode.quote [1],
       Command.subscribe [2], Command.setMode Mode.full [2]] ∧
    (resubscribe stC2).1.sent ≠
      [Command.subscribe [1, 2], Command.setMode Mode.quote [1],
       Command.setMode Mode.full [2]] := by
  constructor <;> decide

/-- C2 (amended): on an open connection, `resubscribe` sends, for each
distinct mode in registry iteration order, one subscribe command with
that mode's tokens immediately followed by one set-mode command for
that mode; and afterwards the registry's token-to-mode mapping equals
the mapping before the call. -/
theorem C2_resubscribe_amended : ∀ (st : ClientState) (k : Nat),
    st.ws = some true → (st.subscribed_tokens.map Prod.fst).Nodup →
    (resubscribe st).2 = Except.ok () ∧
    (resubscribe st).1.sent = st.sent ++
      (groupModes st.subscribed_tokens).flatMap
        (fun g => [Command.subscribe g.2, Command.setMode g.1 g.2]) ∧
    dictLookup (resubscribe st).1.subscribed_tokens k =
      dictLookup st.subscribed_tokens k := by
  intro st k h hnd
  obtain ⟨_, hok, hsent⟩ := resubscribeLoop_sent (groupModes st.subscribed_tokens) st h
  exact ⟨hok, hsent,
    resubscribeLoop_lookup (groupModes st.subscribed_tokens) st h
      (groupModes_sound _ hnd) k⟩

/-- Witness for C2 (amended) at the two-mode client. -/
theorem C2_amended_witness :
    (resubscribe stC2).2 = Except.ok () ∧
    (resubscribe stC2).1.sent = stC2.sent ++
      (groupModes stC2.subscribed_tokens).flatMap
        (fun g => [Command.subscribe g.2, Command.setMode g.1 g.2]) ∧
    dictLookup (resubscribe stC2).1.subscribed_tokens 2 =
      dictLookup stC2.subscribed_tokens 2 :=
  C2_resubscribe_amended stC2 2 (by decide) (by decide)

/-- C3 counterexample: token 1 is registered with mode FULL; after
`subscribe [1]` its recorded mode is QUOTE, not the mode it had — the
claim's "a token already registered with some mode keeps that mode"
fails. -/
theorem C3_counterexample :
    (subscribe stC3 [1]).1.subscribed_tokens = [(1, Mode.quote)] ∧
    (subscribe stC3 [1]).1.subscribed_tokens ≠ [(1, Mode.full)] := by
  constructor <;> decide

/-- C3 (amended): on an open connection, `subscribe` records every
given token with mode QUOTE — overwriting any previously recorded
mode — leaves other tokens untouched, and returns success. -/
theorem C3_subscribe_amended : ∀ (st : ClientState) (tokens : List Nat) (k : Nat),
    st.ws = some true →
    (subscribe st tokens).2 = Except.ok true ∧
    dictLookup (subscribe st tokens).1.subscribed_tokens k =
      (if k ∈ tokens then some Mode.quote
       else dictLookup st.subscribed_tokens k) := by
  intro st tokens k h
  rw [subscribe_open st tokens h]
  exact ⟨rfl, by simp [dictLookup_foldl_set]⟩

/-- Witness for C3 (amended): the FULL-mode token is overwritten to
QUOTE. -/
theorem C3_amended_witness :
    (subscribe stC3 [1]).2 = Except.ok true ∧
    dictLookup (subscribe stC3 [1]).1.subscribed_tokens 1 =
      (if 1 ∈ [1] then some Mode.quote
       else dictLookup stC3.subscribed_tokens 1) :=
  C3_subscribe_amended stC3 [1] 1 (by decide)

/-- C5: while the connection is not open, subscribe, unsubscribe and
set_mode each fail synchronously with an error; when a websocket
object exists (but is not open) the error is the NotConnected one and
the connection is closed with a descriptive reason. -/
theorem C5_not_connected : ∀ (st : ClientState) (tokens : List Nat) (mode : Mode),
    st.ws ≠ some true →
    (∃ e, (subscribe st tokens).2 = Except.error e) ∧
    (∃ e, (unsubscribe st tokens).2 = Except.error e) ∧
    (∃ e, (set_mode st mode tokens).2 = Except.error e) ∧
    (st.ws = some false →
      (subscribe st tokens).2 = Except.error WsError.notConnected ∧
      (subscribe st tokens).1.closes =
        st.closes ++ [("Error while subscribe: ") ++ wsErrMsg WsError.notConnected] ∧
      (unsubscribe st tokens).1.closes =
        st.closes ++ [("Error while unsubscribe: ") ++ wsErrMsg WsError.notConnected] ∧
      (set_mode st mode tokens).1.closes =
        st.closes ++ [("Error while setting mode: ") ++ wsErrMsg WsError.notConnected]) := by
  intro st tokens mode h
  cases hws : st.ws with
  | none =>
      refine ⟨⟨WsError.assertionError, ?_⟩, ⟨WsError.assertionError, ?_⟩,
              ⟨WsError.assertionError, ?_⟩, ?_⟩ <;>
        simp [subscribe, unsubscribe, set_mode, trySend, wsClose, hws]
  | some b =>
      cases b
      · refine ⟨⟨WsError.notConnected, ?_⟩, ⟨WsError.notConnected, ?_⟩,
                ⟨WsError.notConnected, ?_⟩, ?_⟩ <;>
          simp [subscribe, unsubscribe, set_mode, trySend, wsClose, hws]
      · exact absurd hws h

/-- Witness for C5 at a client whose websocket is not open. -/
theorem C5_witness :
    (∃ e, (subscribe stC5 [5]).2 = Except.error e) ∧
    (∃ e, (unsubscribe stC5 [5]).2 = Except.error e) ∧
    (∃ e, (set_mode stC5 Mode.ltp [5]).2 = Except.error e) ∧
    (stC5.ws = some false →
      (subscribe stC5 [5]).2 = Except.error WsError.notConnected ∧
      (subscribe stC5 [5]).1.closes =
        stC5.closes ++ [("Error while subscribe: ") ++ wsErrMsg WsError.notConnected] ∧
      (unsubscribe stC5 [5]).1.closes =
        stC5.closes ++ [("Error while unsubscribe: ") ++ wsErrMsg WsError.notConnected] ∧
      (set_mode stC5 Mode.ltp [5]).1.closes =
        stC5.closes ++ [("Error while setting mode: ") ++ wsErrMsg WsError.notConnected]) :=
  C5_not_connected stC5 [5] Mode.ltp (by decide)

/-- C10: if subscribe, unsubscribe or set_mode raises (the send
failed), the registry is exactly as it was before the call; the
registry is updated only after a successful send. -/
theorem C10_registry_unchanged_on_error : ∀ (st : ClientState)
    (tokens : List Nat) (mode : Mode) (e : WsError),
    ((subscribe st tokens).2 = Except.error e →
      (subscribe st tokens).1.subscribed_tokens = st.subscribed_tokens) ∧
    ((unsubscribe st tokens).2 = Except.error e →
      (unsubscribe st tokens).1.subscribed_tokens = st.subscribed_tokens) ∧
    ((set_mode st mode tokens).2 = Except.error e →
      (set_mode st mode tokens).1.subscribed_tokens = st.subscribed_tokens) := by
  intro st tokens mode e
  cases hws : st.ws with
  | none =>
      refine ⟨?_, ?_, ?_⟩ <;>
        simp [subscribe, unsubscribe, set_mode, trySend, wsClose, hws]
  | some b =>
      cases b
      · refine ⟨?_, ?_, ?_⟩ <;>
          simp [subscribe, unsubscribe, set_mode, trySend, wsClose, hws]
      · refine ⟨?_, ?_, ?_⟩ <;>
          simp [subscribe, unsubscribe, set_mode, trySend, hws]

/-- Witness for C10: a failing subscribe on a non-open connection
leaves the registry untouched. -/
theorem C10_witness :
    (subscribe stC5 [5]).2 = Except.error WsError.notConnected ∧
    (subscribe stC5 [5]).1.subscribed_tokens = stC5.subscribed_tokens :=
  ⟨rfl,
   (C10_registry_unchanged_on_error stC5 [5] Mode.ltp
      WsError.notConnected).1 rfl⟩

/-- Invariant of reachable factory states: while `retries ≤ maxRetries`
no exhaustion callback has fired and retrying is still enabled; once
`retries` exceeds `maxRetries` the callback has fired exactly once and
no attempt is pending. -/
theorem reaches_inv (M : Nat) (dbg : Bool) (s : FactoryState)
    (h : Reaches (initFactory M dbg) s) :
    s.maxRetries = M ∧
    ((s.retries ≤ M ∧ s.noreconnectCount = 0 ∧ s.continueTrying = true) ∨
     (s.retries = M + 1 ∧ s.noreconnectCount = 1 ∧ s.attemptPending = false)) := by
  induction h with
  | refl => simp [initFactory]
  | step s2 hr hp ih =>
      obtain ⟨hmax, hinv⟩ := ih
      rcases hinv with ⟨hle, hcnt, hct⟩ | ⟨hret, hcnt, hpend⟩
      · by_cases hc : 0 < s2.retries <;> by_cases hM : M < s2.retries + 1 <;>
          by_cases hd : s2.debug <;>
          simp [clientConnectionLost, retry, send_noreconnect, stopRetrying,
                hc, hM, hd, hct, hmax, hcnt] <;>
          omega
      · rw [hpend] at hp
        cases hp

/-- C4: along every factory trace (a failure event can only occur
while an attempt is pending), the retries-exhausted callback fires at
most once, and once `retries` exceeds `maxRetries` no further attempt
is pending and the callback has fired exactly once. -/
theorem C4_retries_exhausted : ∀ (M : Nat) (dbg : Bool) (s : FactoryState),
    Reaches (initFactory M dbg) s →
    s.noreconnectCount ≤ 1 ∧
    (M < s.retries → s.attemptPending = false ∧ s.noreconnectCount = 1) := by
  intro M dbg s h
  obtain ⟨hmax, hinv⟩ := reaches_inv M dbg s h
  rcases hinv with ⟨hle, hcnt, _⟩ | ⟨hret, hcnt, hpend⟩
  · exact ⟨by omega, fun hM => absurd hM (by omega)⟩
  · exact ⟨by omega, fun _ => ⟨hpend, hcnt⟩⟩

/-- Witness for C4: with maxRetries = 1, after two consecutive
failures the exhausted state is reached. -/
theorem C4_witness :
    (clientConnectionLost (clientConnectionLost
      (initFactory 1 false))).noreconnectCount ≤ 1 ∧
    (1 < (clientConnectionLost (clientConnectionLost
        (initFactory 1 false))).retries →
      (clientConnectionLost (clientConnectionLost
        (initFactory 1 false))).attemptPending = false ∧
      (clientConnectionLost (clientConnectionLost
        (initFactory 1 false))).noreconnectCount = 1) :=
  C4_retries_exhausted 1 false _
    (Reaches.step _ (Reaches.step _ Reaches.refl (by decide)) (by decide))

/-- C9: an inbound text payload that is not valid JSON (json.loads
raised ValueError) is silently discarded: the dispatcher returns
without raising and emits no event — neither an order update nor an
error — whether or not an order-update callback is registered. -/
theorem C9_invalid_json_silent : ∀ on_order_update : Bool,
    parse_text_message none on_order_update = some [] := by
  intro b
  rfl
